import Mathlib

/-!
# log-gin: response recorder, request logging and correlation stages

A shallow embedding of `gin.go`.  Go values are modelled as follows.

* `[]byte` and `string` are both lists of bytes (a Go string is a byte sequence, and
  `string(b)` / `[]byte(s)` copy the bytes unchanged).  A byte is a natural number below 256;
  nothing here does arithmetic on bytes.
* `int` is `Int`, `error` is `Option GoError` (`none` is `nil`).
* Pointers to per-request objects are modelled by explicit state passing.
* Interfaces implemented outside the repository (`gin.ResponseWriter`, `io.Reader`) are
  modelled by the calls they receive and by arbitrary answers to those calls.
* The library functions the package calls (`io.ReadAll`, `bytes.Buffer`, `Header.Get`,
  `c.Set`, `c.Value`, `errorMsgs.ByType`, `errorMsgs.String`, `Logger.With`) follow the Go
  standard library and gin; run-time panics of the libraries (a buffer too large, a nil
  request) are not modelled.
-/

namespace LogGin

/-! ## Go base values -/

abbrev Byte := Nat

abbrev Bytes := List Byte

abbrev GoString := List Byte

/-- The bytes of an ASCII literal. -/
def str (s : String) : GoString := s.toList.map Char.toNat

/-- A Go `error` value that is not `nil`, identified by its message. -/
structure GoError where
  msg : GoString
deriving DecidableEq

/-- A Go `any` value as far as this package stores or logs one. -/
inductive GoAny where
  | nil
  | string (s : GoString)
  | int (n : Int)
  | duration (d : Int)
  | other (tag : Nat)
deriving DecidableEq

/-- The conversion `string(b)` of a byte slice: the same bytes. -/
def string (b : Bytes) : GoString := b

/-! ## `bytes.Buffer` -/

/-- The statement `buf.Write(p)` on a `*bytes.Buffer` holding `buf`: p is appended. -/
def bufferWrite (buf : Bytes) (p : Bytes) : Bytes := buf ++ p

/-- The call `buf.String()`: the unread content as a string. -/
def bufferString (buf : Bytes) : GoString := string buf

/-! ## `gin.ResponseWriter` -/

/-- The result `(n, err)` of a `Write`. -/
abbrev WriteResult := Int × Option GoError

/-- A call received by a response sink. -/
inductive SinkCall where
  | Write (data : Bytes)
  | WriteString (s : GoString)
  | WriteHeader (statusCode : Int)
deriving DecidableEq

/-- The methods of `gin.ResponseWriter` that handlers use to produce a response. -/
class GinResponseWriter (ω : Type) where
  Write : ω → Bytes → ω × WriteResult
  WriteString : ω → GoString → ω × WriteResult
  WriteHeader : ω → Int → ω

/-- A response sink implemented outside this package: the calls it has received so far, and
how it answers, each as an arbitrary function of the calls received before.  Every
deterministic implementation of the interface is of this form. -/
structure Sink where
  calls : List SinkCall
  writeResult : List SinkCall → Bytes → WriteResult
  writeStringResult : List SinkCall → GoString → WriteResult
  statusAfter : List SinkCall → Int

/-- The call `w.Write(data)` on a sink. -/
def Sink.Write (w : Sink) (data : Bytes) : Sink × WriteResult :=
  ({ w with calls := w.calls ++ [SinkCall.Write data] }, w.writeResult w.calls data)

/-- The call `w.WriteString(s)` on a sink. -/
def Sink.WriteString (w : Sink) (s : GoString) : Sink × WriteResult :=
  ({ w with calls := w.calls ++ [SinkCall.WriteString s] }, w.writeStringResult w.calls s)

/-- The call `w.WriteHeader(statusCode)` on a sink. -/
def Sink.WriteHeader (w : Sink) (statusCode : Int) : Sink :=
  { w with calls := w.calls ++ [SinkCall.WriteHeader statusCode] }

/-- The call `w.Status()` on a sink: the status the sink itself has recorded. -/
def Sink.Status (w : Sink) : Int := w.statusAfter w.calls

instance instWriterSink : GinResponseWriter Sink where
  Write := Sink.Write
  WriteString := Sink.WriteString
  WriteHeader := Sink.WriteHeader

/-- A sequence of `Write` calls made on a writer, with the results returned.  On a sink the
calls are those of `Sink.Write`, on a recorder those of `ResponseRecorder.Write`. -/
def writeAll {ω : Type} [GinResponseWriter ω] : ω → List Bytes → ω × List WriteResult
  | w, [] => (w, [])
  | w, d :: ds =>
    let r := GinResponseWriter.Write w d
    let rest := writeAll r.1 ds
    (rest.1, r.2 :: rest.2)

/-! ## `ResponseRecorder` (gin.go 17-34) -/

/-- The struct `ResponseRecorder`: the embedded `gin.ResponseWriter`, the content of the
buffer `body` points to, and `status`. -/
structure ResponseRecorder (ω : Type) where
  ResponseWriter : ω
  body : Bytes
  status : Int

/-- The method `(r *ResponseRecorder) Write(data []byte) (int, error)`. -/
def ResponseRecorder.Write {ω : Type} [GinResponseWriter ω] (r : ResponseRecorder ω)
    (data : Bytes) : ResponseRecorder ω × WriteResult :=
  let body := bufferWrite r.body data
  let res := GinResponseWriter.Write r.ResponseWriter data
  ({ r with body := body, ResponseWriter := res.1 }, res.2)

/-- The method `(r *ResponseRecorder) WriteHeader(statusCode int)`. -/
def ResponseRecorder.WriteHeader {ω : Type} [GinResponseWriter ω] (r : ResponseRecorder ω)
    (statusCode : Int) : ResponseRecorder ω :=
  let status := statusCode
  { r with status := status,
           ResponseWriter := GinResponseWriter.WriteHeader r.ResponseWriter statusCode }

/-- The method `WriteString`, which `ResponseRecorder` does not define: Go promotes the one of
the embedded `gin.ResponseWriter`, so the call goes to the wrapped writer alone. -/
def ResponseRecorder.WriteString {ω : Type} [GinResponseWriter ω] (r : ResponseRecorder ω)
    (s : GoString) : ResponseRecorder ω × WriteResult :=
  let res := GinResponseWriter.WriteString r.ResponseWriter s
  ({ r with ResponseWriter := res.1 }, res.2)

instance instWriterRecorder {ω : Type} [GinResponseWriter ω] :
    GinResponseWriter (ResponseRecorder ω) where
  Write := ResponseRecorder.Write
  WriteString := ResponseRecorder.WriteString
  WriteHeader := ResponseRecorder.WriteHeader

/-! ## `io.Reader`, `io.ReadAll`, `io.NopCloser`, `bytes.NewBuffer` -/

/-- The error of a `Read`: the end-of-stream marker `io.EOF`, or a failure. -/
inductive ReadErr where
  | EOF
  | fail (e : GoError)
deriving DecidableEq

/-- The result of one `Read` call: the bytes delivered and the error returned with them. -/
structure ReadStep where
  data : Bytes
  err : Option ReadErr
deriving DecidableEq

/-- A byte stream that ends: the results of its successive `Read` calls; once they are used
up, `Read` delivers nothing and reports `io.EOF`.  (On a stream that never ends or fails
`io.ReadAll` does not return; such streams are left out.) -/
abbrev Reader := List ReadStep

/-- The loop of `io.ReadAll`, started with `b` already read: each result is appended, a
failure ends the loop with the bytes read so far, and `io.EOF` ends it with no error. -/
def ReadAllLoop (b : Bytes) : Reader → Bytes × Option GoError
  | [] => (b, none)
  | step :: rest =>
    let b := b ++ step.data
    match step.err with
    | some ReadErr.EOF => (b, none)
    | some (ReadErr.fail e) => (b, some e)
    | none => ReadAllLoop b rest

/-- The call `io.ReadAll(r)`. -/
def ReadAll (r : Reader) : Bytes × Option GoError := ReadAllLoop [] r

/-- The call `bytes.NewBuffer(buf)` seen as an `io.Reader`: while content is left a `Read`
delivers it with a nil error, afterwards `Read` reports `io.EOF`. -/
def NewBuffer (buf : Bytes) : Reader :=
  if buf = [] then [] else [{ data := buf, err := none }]

/-- The call `io.NopCloser(r)`: the same stream, `Close` doing nothing. -/
def NopCloser (r : Reader) : Reader := r

/-! ## `http.Request` -/

/-- The fields of `*http.Request` this package reads: `Method`, `URL.Path`, `URL.RawQuery`,
`Header` (from the canonical header name to its values) and `Body` (`none` is `nil`). -/
structure Request where
  Method : GoString
  Path : GoString
  RawQuery : GoString
  Header : GoString → List GoString
  Body : Option Reader

/-- The call `h.Get(key)`: the first value of the header, the empty string when it has none.
(`Get` looks the key up in canonical form; header names are taken in that form here.) -/
def HeaderGet (h : GoString → List GoString) (key : GoString) : GoString :=
  match h key with
  | [] => []
  | v :: _ => v

/-! ## `gin.Error` and `errorMsgs` -/

/-- The struct `gin.Error`: the error, its type bits (a `uint64`) and the text of `Meta`
(`none` is `nil`). -/
structure GinError where
  Err : GoError
  Type_ : Nat
  Meta : Option GoString
deriving DecidableEq

def ErrorTypePrivate : Nat := 1

def ErrorTypeAny : Nat := 2 ^ 64 - 1

/-- The method `(msg *Error) IsType(flags)`: some bit of `flags` is set in the type. -/
def GinError.IsType (msg : GinError) (flags : Nat) : Bool :=
  decide (Nat.land msg.Type_ flags > 0)

/-- The method `(a errorMsgs) ByType(typ)`. -/
def ByType (a : List GinError) (typ : Nat) : List GinError :=
  if a.length = 0 then []
  else if typ = ErrorTypeAny then a
  else a.filter (fun msg => msg.IsType typ)

/-- The decimal digits of a number. -/
def decimal (n : Nat) : GoString := (Nat.toDigits 10 n).map Char.toNat

/-- The verb `%02d` on a number that is not negative. -/
def fmt02d (n : Nat) : GoString :=
  if n < 10 then str "0" ++ decimal n else decimal n

/-- The loop of `(a errorMsgs) String()` from index `i` on: a line
`Error #NN: text` for each error, followed by a line `     Meta: text` when it has one. -/
def errorMsgsStringLoop : Nat → List GinError → GoString
  | _, [] => []
  | i, msg :: rest =>
    (str "Error #" ++ fmt02d (i + 1) ++ str ": " ++ msg.Err.msg ++ str "\n")
      ++ (match msg.Meta with
          | none => []
          | some m => str "     Meta: " ++ m ++ str "\n")
      ++ errorMsgsStringLoop (i + 1) rest

/-- The method `(a errorMsgs) String()`. -/
def errorMsgsString (a : List GinError) : GoString :=
  if a.length = 0 then [] else errorMsgsStringLoop 0 a

/-! ## `slog.Logger` -/

inductive Level where
  | Debug
  | Info
  | Warn
  | Error
deriving DecidableEq

/-- A `*slog.Logger`: the attributes it carries. -/
abbrev Logger := List (GoString × GoAny)

/-- The call `l.With(args...)`: a logger carrying the attributes of `l` and then `args`. -/
def LoggerWith (l : Logger) (args : List (GoString × GoAny)) : Logger := l ++ args

/-- A log call as it reaches the logging sink. -/
structure LogEvent where
  level : Level
  msg : GoString
  logger : Logger
  args : List (GoString × GoAny)
deriving DecidableEq

/-! ## `gin.Context` -/

/-- The `*gin.Context` of the request in flight (`Request`, `Writer`, `Keys`, `Errors`),
together with the process-wide collaborators its handlers reach: the log calls made so far,
the reading of the monotonic clock, and the number of tokens `uuid.New` has issued. -/
structure Context (ω : Type) where
  Request : Request
  Writer : ω
  Keys : GoString → Option GoAny
  Errors : List GinError
  logged : List LogEvent
  clock : Nat
  uuidCalls : Nat

/-- The call `c.Set(key, value)`. -/
def Context.Set {ω : Type} (c : Context ω) (key : GoString) (value : GoAny) : Context ω :=
  { c with Keys := fun k => if k = key then some value else c.Keys k }

/-- The call `c.Value(key)` for a string key: the value stored under it, `nil` when there
is none (the fallback to the context of the request is off unless the engine enables it). -/
def Context.Value {ω : Type} (c : Context ω) (key : GoString) : GoAny :=
  match c.Keys key with
  | some v => v
  | none => GoAny.nil

/-- The call `l.Info(msg, args...)`, made while the request is in flight. -/
def LoggerInfo {ω : Type} (l : Logger) (msg : GoString) (args : List (GoString × GoAny))
    (c : Context ω) : Context ω :=
  { c with logged := c.logged ++ [{ level := Level.Info, msg := msg, logger := l, args := args }] }

/-- What the package takes from outside: the two header names of `toaweme/http`, gin's
`c.ClientIP()` as a function of the request, the tokens `uuid.New().String()` returns (by
call number), and the global `log.Logger`. -/
structure Env where
  ClientIDHeaderName : GoString
  ClientUserAgentHeaderName : GoString
  ClientIP : Request → GoString
  uuid : Nat → GoString
  Logger : Logger

/-! ## The rest of the handler chain -/

/-- One thing a downstream handler does with the context: the three response calls on
`c.Writer`, `c.Set`, `c.Error` (with the type the error ends up with), a change of
`c.Request`, a log call of its own, and time passing. -/
inductive HandlerOp where
  | Write (data : Bytes)
  | WriteString (s : GoString)
  | WriteHeader (statusCode : Int)
  | Set (key : GoString) (value : GoAny)
  | Error (e : GinError)
  | SetRequest (r : Request)
  | Log (ev : LogEvent)
  | Sleep (d : Nat)

/-- The effect of one handler operation. -/
def HandlerOp.run {ω : Type} [GinResponseWriter ω] (c : Context ω) : HandlerOp → Context ω
  | HandlerOp.Write data => { c with Writer := (GinResponseWriter.Write c.Writer data).1 }
  | HandlerOp.WriteString s => { c with Writer := (GinResponseWriter.WriteString c.Writer s).1 }
  | HandlerOp.WriteHeader statusCode =>
    { c with Writer := GinResponseWriter.WriteHeader c.Writer statusCode }
  | HandlerOp.Set key value => c.Set key value
  | HandlerOp.Error e => { c with Errors := c.Errors ++ [e] }
  | HandlerOp.SetRequest r => { c with Request := r }
  | HandlerOp.Log ev => { c with logged := c.logged ++ [ev] }
  | HandlerOp.Sleep d => { c with clock := c.clock + d }

/-- The call `c.Next()`: the remaining handlers run to their end; `ops` is what they do with
the context, in order.  What a handler does may depend on the answers it gets; each run is
one such sequence, and the theorems hold for all of them.  Handlers do not put another writer
in `c.Writer` and do not take errors off `c.Errors`. -/
def Next {ω : Type} [GinResponseWriter ω] (ops : List HandlerOp) (c : Context ω) : Context ω :=
  ops.foldl HandlerOp.run c

/-! ## `Ctx`, `ID`, `GinLogTraceMiddleware` (gin.go 84-113) -/

def KeyLoggerRequestID : GoString := str "id"

def KeyGinRequestID : GoString := str "id"

def KeyLoggerUserAgent : GoString := str "user-agent"

def KeyGinUserAgent : GoString := str "user-agent"

/-- The function `Ctx(reqCtx)`. -/
def Ctx {ω : Type} (env : Env) (reqCtx : Context ω) : Logger :=
  LoggerWith env.Logger
    [(KeyLoggerRequestID, reqCtx.Value KeyGinRequestID),
     (KeyLoggerUserAgent, reqCtx.Value KeyGinUserAgent)]

/-- The function `ID()`: the next token of `uuid.New().String()`. -/
def ID {ω : Type} (env : Env) (c : Context ω) : GoString × Context ω :=
  (env.uuid c.uuidCalls, { c with uuidCalls := c.uuidCalls + 1 })

/-- The handler returned by `GinLogTraceMiddleware()`. -/
def GinLogTraceMiddleware {ω : Type} (env : Env) (c : Context ω) : Context ω :=
  let id := HeaderGet c.Request.Header env.ClientIDHeaderName
  let r := if id = [] then ID env c else (id, c)
  let id := r.1
  let c := r.2
  let c := c.Set KeyGinRequestID (GoAny.string id)
  let client := HeaderGet c.Request.Header env.ClientUserAgentHeaderName
  let client := if client = [] then str "unknown" else client
  c.Set KeyGinUserAgent (GoAny.string client)

/-! ## `SlogMiddleware` (gin.go 36-82) -/

def StatusOK : Int := 200

/-- The local variables of the handler that live across `c.Next()`. -/
structure SlogLocals where
  start : Nat
  method : GoString
  path : GoString
  query : GoString
  clientIP : GoString
  requestBody : GoString

/-- Lines 39-61: the locals are taken, the body is read and restored, and the recorder is
put in place of `c.Writer`. -/
def SlogBefore {ω : Type} (env : Env) (c : Context ω) :
    SlogLocals × Context (ResponseRecorder ω) :=
  let start := c.clock
  let method := c.Request.Method
  let path := c.Request.Path
  let query := c.Request.RawQuery
  let clientIP := env.ClientIP c.Request
  let r : GoString × Request :=
    match c.Request.Body with
    | none => ([], c.Request)
    | some body =>
      let bodyBytes := (ReadAll body).1
      (string bodyBytes, { c.Request with Body := some (NopCloser (NewBuffer bodyBytes)) })
  let requestBody := r.1
  let recorder : ResponseRecorder ω :=
    { ResponseWriter := c.Writer, body := [], status := StatusOK }
  ({ start := start, method := method, path := path, query := query, clientIP := clientIP,
     requestBody := requestBody },
   { Request := r.2, Writer := recorder, Keys := c.Keys, Errors := c.Errors,
     logged := c.logged, clock := c.clock, uuidCalls := c.uuidCalls })

/-- Lines 66-80: the latency is taken and the event is logged.  The local `recorder` points to
the object that was put in `c.Writer`. -/
def SlogAfter {ω : Type} (env : Env) (l : SlogLocals) (c : Context (ResponseRecorder ω)) :
    Context (ResponseRecorder ω) :=
  let latency : Int := (c.clock : Int) - (l.start : Int)
  let recorder := c.Writer
  LoggerInfo (Ctx env c) (str "api")
    [(str "method", GoAny.string l.method),
     (str "path", GoAny.string l.path),
     (str "query", GoAny.string l.query),
     (str "client_ip", GoAny.string l.clientIP),
     (str "request_body", GoAny.string l.requestBody),
     (str "response_body", GoAny.string (bufferString recorder.body)),
     (str "status", GoAny.int recorder.status),
     (str "latency", GoAny.duration latency),
     (str "error", GoAny.string (errorMsgsString (ByType c.Errors ErrorTypePrivate)))]
    c

/-- The handler returned by `SlogMiddleware()`; `next` is what `c.Next()` runs. -/
def SlogMiddleware {ω : Type} [GinResponseWriter ω] (env : Env) (next : List HandlerOp)
    (c : Context ω) : Context (ResponseRecorder ω) :=
  let b := SlogBefore env c
  let c := Next next b.2
  SlogAfter env b.1 c

/-! ## What a handler chain did, read off its operations -/

/-- The bytes a handler operation passes to `Write`. -/
def HandlerOp.writeData : HandlerOp → Option Bytes
  | HandlerOp.Write data => some data
  | _ => none

/-- The status a handler operation passes to `WriteHeader`. -/
def HandlerOp.headerCode : HandlerOp → Option Int
  | HandlerOp.WriteHeader statusCode => some statusCode
  | _ => none

/-- The error a handler operation records. -/
def HandlerOp.recorded : HandlerOp → Option GinError
  | HandlerOp.Error e => some e
  | _ => none

/-- The event a handler operation logs. -/
def HandlerOp.logs : HandlerOp → Option LogEvent
  | HandlerOp.Log ev => some ev
  | _ => none

/-- Whether a handler operation stores a value under `key`. -/
def HandlerOp.setsKey (key : GoString) : HandlerOp → Bool
  | HandlerOp.Set k _ => decide (k = key)
  | _ => false

/-- The chunks passed to `Write` by a chain, in order. -/
def writesOf (ops : List HandlerOp) : List Bytes := ops.filterMap HandlerOp.writeData

/-- The status codes passed to `WriteHeader` by a chain, in order. -/
def statusesOf (ops : List HandlerOp) : List Int := ops.filterMap HandlerOp.headerCode

/-- The errors recorded by a chain, in order. -/
def errorsOf (ops : List HandlerOp) : List GinError := ops.filterMap HandlerOp.recorded

/-- The events logged by the handlers of a chain, in order. -/
def logsOf (ops : List HandlerOp) : List LogEvent := ops.filterMap HandlerOp.logs

/-- The value of the first attribute named `key`. -/
def attr (args : List (GoString × GoAny)) (key : GoString) : Option GoAny :=
  (args.find? (fun p => decide (p.1 = key))).map Prod.snd

/-! ## Concrete sinks and requests used in examples -/

/-- A sink that accepts every byte and records the last status it is given. -/
def recordingSink : Sink :=
  { calls := [],
    writeResult := fun _ data => ((data.length : Int), none),
    writeStringResult := fun _ s => ((s.length : Int), none),
    statusAfter := fun calls =>
      ((calls.filterMap (fun call =>
          match call with
          | SinkCall.WriteHeader statusCode => some statusCode
          | _ => none)).getLast?).getD 200 }

/-- The status of a sink that fixes its status when the first body bytes are sent: later
`WriteHeader` calls are received and ignored (gin's own writer warns and keeps its status). -/
def statusBeforeBody : Int → List SinkCall → Int
  | status, [] => status
  | _, SinkCall.WriteHeader statusCode :: rest => statusBeforeBody statusCode rest
  | status, _ :: _ => status

/-- A sink that accepts every byte and keeps the status it had when the body began. -/
def committingSink : Sink :=
  { calls := [],
    writeResult := fun _ data => ((data.length : Int), none),
    writeStringResult := fun _ s => ((s.length : Int), none),
    statusAfter := statusBeforeBody 200 }

/-- A sink whose connection breaks: it takes three bytes of each write and fails. -/
def brokenSink : Sink :=
  { calls := [],
    writeResult := fun _ _ => (3, some { msg := str "broken pipe" }),
    writeStringResult := fun _ _ => (3, some { msg := str "broken pipe" }),
    statusAfter := fun _ => 200 }

/-- The collaborators of the examples: header names, client address, tokens, logger. -/
def exampleEnv : Env :=
  { ClientIDHeaderName := str "Client-Id",
    ClientUserAgentHeaderName := str "Client-User-Agent",
    ClientIP := fun _ => str "10.0.0.1",
    uuid := fun n => str "token-" ++ decimal n,
    Logger := [] }

/-- The request `GET /items?x=1` with header `client-id: req-42` and no body. -/
def exampleRequest : Request :=
  { Method := str "GET", Path := str "/items", RawQuery := str "x=1",
    Header := fun k => if k = str "Client-Id" then [str "req-42"] else [],
    Body := none }

/-- The context of a request on entry to the first stage. -/
def exampleContext (r : Request) (w : Sink) : Context Sink :=
  { Request := r, Writer := w, Keys := fun _ => none, Errors := [], logged := [],
    clock := 1000, uuidCalls := 0 }

/-- A chain that answers with status 201 and the body `{"id":7}`. -/
def exampleChain : List HandlerOp :=
  [HandlerOp.WriteHeader 201, HandlerOp.Write (str "\x7b\"id\":7\x7d")]

/-- A request `POST /items` whose body delivers `ab` and then fails. -/
def failingBodyRequest : Request :=
  { Method := str "POST", Path := str "/items", RawQuery := [],
    Header := fun _ => [],
    Body := some [{ data := str "ab", err := some (ReadErr.fail { msg := str "connection reset" }) }] }

/-- A request `POST /items` whose body arrives in two reads, `ab` and `c`. -/
def chunkedBodyRequest : Request :=
  { Method := str "POST", Path := str "/items", RawQuery := [],
    Header := fun _ => [],
    Body := some [{ data := str "ab", err := none }, { data := str "c", err := some ReadErr.EOF }] }

/-- A request carrying the header `client-id: abc` and no client label. -/
def abcRequest : Request :=
  { Method := str "GET", Path := str "/", RawQuery := [],
    Header := fun k => if k = str "Client-Id" then [str "abc"] else [],
    Body := none }

/-- The private error `db timeout`, as `c.Error` records it. -/
def dbTimeout : GinError :=
  { Err := { msg := str "db timeout" }, Type_ := ErrorTypePrivate, Meta := none }

/-! ## Shared lemmas -/

/-! ## The recorder under a sequence of writes -/

theorem writeAll_recorder {ω : Type} [GinResponseWriter ω] (ds : List Bytes) :
    ∀ r : ResponseRecorder ω,
      (writeAll r ds).1 =
          { ResponseWriter := (writeAll r.ResponseWriter ds).1,
            body := r.body ++ ds.flatten, status := r.status }
        ∧ (writeAll r ds).2 = (writeAll r.ResponseWriter ds).2 := by
  induction ds with
  | nil => intro r; simp [writeAll]
  | cons d ds ih =>
    intro r
    have h := ih (ResponseRecorder.Write r d).1
    simp only [writeAll, GinResponseWriter.Write] at h ⊢
    simp only [ResponseRecorder.Write, bufferWrite] at h ⊢
    constructor
    · rw [h.1]; simp [List.append_assoc]
    · rw [h.2]

theorem writeAll_sink_calls (ds : List Bytes) :
    ∀ w : Sink, (writeAll w ds).1.calls = w.calls ++ ds.map SinkCall.Write := by
  induction ds with
  | nil => intro w; simp [writeAll]
  | cons d ds ih =>
    intro w
    have h := ih (Sink.Write w d).1
    simp only [writeAll, GinResponseWriter.Write] at h ⊢
    rw [h]; simp [Sink.Write]


theorem run_recorder_body {ω : Type} [GinResponseWriter ω] (c : Context (ResponseRecorder ω))
    (op : HandlerOp) :
    (HandlerOp.run c op).Writer.body = c.Writer.body ++ (op.writeData).getD [] := by
  cases op <;>
    simp [HandlerOp.run, HandlerOp.writeData, GinResponseWriter.Write,
      GinResponseWriter.WriteString, GinResponseWriter.WriteHeader, ResponseRecorder.Write,
      ResponseRecorder.WriteString, ResponseRecorder.WriteHeader, bufferWrite, Context.Set]

theorem run_recorder_status {ω : Type} [GinResponseWriter ω] (c : Context (ResponseRecorder ω))
    (op : HandlerOp) :
    (HandlerOp.run c op).Writer.status = (op.headerCode).getD c.Writer.status := by
  cases op <;>
    simp [HandlerOp.run, HandlerOp.headerCode, GinResponseWriter.Write,
      GinResponseWriter.WriteString, GinResponseWriter.WriteHeader, ResponseRecorder.Write,
      ResponseRecorder.WriteString, ResponseRecorder.WriteHeader, Context.Set]

theorem Next_recorder_body {ω : Type} [GinResponseWriter ω] (ops : List HandlerOp) :
    ∀ c : Context (ResponseRecorder ω),
      (Next ops c).Writer.body = c.Writer.body ++ (writesOf ops).flatten := by
  induction ops with
  | nil => intro c; simp [Next, writesOf]
  | cons op ops ih =>
    intro c
    have h := ih (HandlerOp.run c op)
    simp only [Next, List.foldl_cons] at h ⊢
    rw [h, run_recorder_body]
    cases hd : op.writeData <;> simp [writesOf, List.filterMap_cons, hd]

theorem Next_recorder_status {ω : Type} [GinResponseWriter ω] (ops : List HandlerOp) :
    ∀ c : Context (ResponseRecorder ω),
      (Next ops c).Writer.status = ((statusesOf ops).getLast?).getD c.Writer.status := by
  induction ops with
  | nil => intro c; simp [Next, statusesOf]
  | cons op ops ih =>
    intro c
    have h := ih (HandlerOp.run c op)
    simp only [Next, List.foldl_cons] at h ⊢
    rw [h, run_recorder_status]
    cases hd : op.headerCode with
    | none => simp [statusesOf, List.filterMap_cons, hd]
    | some code =>
      simp only [statusesOf, List.filterMap_cons, hd, Option.getD_some]
      cases hl : (List.filterMap HandlerOp.headerCode ops).getLast? with
      | none =>
        have : List.filterMap HandlerOp.headerCode ops = [] := by
          simpa using hl
        simp [this]
      | some x =>
        simp [List.getLast?_cons, hl]

theorem Next_Errors {ω : Type} [GinResponseWriter ω] (ops : List HandlerOp) :
    ∀ c : Context ω, (Next ops c).Errors = c.Errors ++ errorsOf ops := by
  induction ops with
  | nil => intro c; simp [Next, errorsOf]
  | cons op ops ih =>
    intro c
    have h := ih (HandlerOp.run c op)
    simp only [Next, List.foldl_cons] at h ⊢
    rw [h]
    cases op <;> simp [HandlerOp.run, errorsOf, List.filterMap_cons, HandlerOp.recorded, Context.Set]

theorem Next_logged {ω : Type} [GinResponseWriter ω] (ops : List HandlerOp) :
    ∀ c : Context ω, (Next ops c).logged = c.logged ++ logsOf ops := by
  induction ops with
  | nil => intro c; simp [Next, logsOf]
  | cons op ops ih =>
    intro c
    have h := ih (HandlerOp.run c op)
    simp only [Next, List.foldl_cons] at h ⊢
    rw [h]
    cases op <;> simp [HandlerOp.run, logsOf, List.filterMap_cons, HandlerOp.logs, Context.Set]

theorem Next_Keys {ω : Type} [GinResponseWriter ω] (key : GoString) (ops : List HandlerOp) :
    ∀ c : Context ω, (∀ op ∈ ops, op.setsKey key = false) →
      (Next ops c).Keys key = c.Keys key := by
  induction ops with
  | nil => intro c _; simp [Next]
  | cons op ops ih =>
    intro c hk
    have h := ih (HandlerOp.run c op) (fun o ho => hk o (List.mem_cons_of_mem _ ho))
    simp only [Next, List.foldl_cons] at h ⊢
    rw [h]
    have hop := hk op (List.mem_cons_self _ _)
    cases op with
    | Set k v =>
      have hne : ¬ key = k := by
        intro hkk
        simp [HandlerOp.setsKey, hkk] at hop
      simp [HandlerOp.run, Context.Set, hne]
    | _ => simp [HandlerOp.run]

theorem SlogMiddleware_logged {ω : Type} [GinResponseWriter ω] (env : Env)
    (next : List HandlerOp) (c : Context ω) :
    (SlogMiddleware env next c).logged
      = c.logged ++ logsOf next ++
        [{ level := Level.Info, msg := str "api",
           logger := Ctx env (Next next (SlogBefore env c).2),
           args :=
            [(str "method", GoAny.string c.Request.Method),
             (str "path", GoAny.string c.Request.Path),
             (str "query", GoAny.string c.Request.RawQuery),
             (str "client_ip", GoAny.string (env.ClientIP c.Request)),
             (str "request_body", GoAny.string (SlogBefore env c).1.requestBody),
             (str "response_body", GoAny.string (writesOf next).flatten),
             (str "status", GoAny.int (((statusesOf next).getLast?).getD StatusOK)),
             (str "latency",
               GoAny.duration (((Next next (SlogBefore env c).2).clock : Int) - (c.clock : Int))),
             (str "error",
               GoAny.string (errorMsgsString
                 (ByType (c.Errors ++ errorsOf next) ErrorTypePrivate)))] }] := by
  have hb := Next_recorder_body next (SlogBefore env c).2
  have hs := Next_recorder_status next (SlogBefore env c).2
  have he := Next_Errors next (SlogBefore env c).2
  have hl := Next_logged next (SlogBefore env c).2
  simp only [SlogMiddleware, SlogAfter, LoggerInfo, bufferString, string]
  rw [hb, hs, he, hl]
  simp [SlogBefore]

theorem SlogBefore_requestBody {ω : Type} (env : Env) (c : Context ω) :
    (SlogBefore env c).1.requestBody
      = (match c.Request.Body with
         | none => []
         | some body => (ReadAll body).1) := by
  cases h : c.Request.Body <;> simp [SlogBefore, h, string]

theorem ByType_private (a : List GinError) :
    ByType a ErrorTypePrivate = a.filter (fun e => e.IsType ErrorTypePrivate) := by
  unfold ByType
  by_cases h : a.length = 0
  · have : a = [] := List.length_eq_zero.mp h
    simp [this]
  · have hne : ¬ ErrorTypePrivate = ErrorTypeAny := by decide
    simp [h, hne]

theorem str_error_head : str "Error #" = [69, 114, 114, 111, 114, 32, 35] := by decide

theorem errorMsgsString_eq_nil (a : List GinError) : errorMsgsString a = [] ↔ a = [] := by
  cases a with
  | nil => simp [errorMsgsString]
  | cons e rest => simp [errorMsgsString, errorMsgsStringLoop, str_error_head]

theorem errorMsgsString_single (e : GinError) (h : e.Meta = none) :
    errorMsgsString [e] = str "Error #01: " ++ e.Err.msg ++ str "\n" := by
  have h1 : str "Error #" ++ fmt02d (0 + 1) ++ str ": " = str "Error #01: " := by decide
  simp only [errorMsgsString, errorMsgsStringLoop, h]
  simp only [List.length_singleton, one_ne_zero, if_false, List.append_nil]
  rw [h1]

theorem errorMsgsString_single_infix (e : GinError) :
    List.IsInfix e.Err.msg (errorMsgsString [e]) := by
  have h1 : str "Error #" ++ fmt02d (0 + 1) ++ str ": " = str "Error #01: " := by decide
  cases hm : e.Meta with
  | none =>
    refine ⟨str "Error #01: ", str "\n", ?_⟩
    simp only [errorMsgsString, errorMsgsStringLoop, hm]
    simp only [List.length_singleton, one_ne_zero, if_false, List.append_nil]
    rw [h1]
  | some m =>
    refine ⟨str "Error #01: ", str "\n" ++ (str "     Meta: " ++ m ++ str "\n"), ?_⟩
    simp only [errorMsgsString, errorMsgsStringLoop, hm]
    simp only [List.length_singleton, one_ne_zero, if_false, List.append_nil]
    rw [h1]
    simp [List.append_assoc]

theorem GinLogTraceMiddleware_Value_id {ω : Type} (env : Env) (c : Context ω) :
    (GinLogTraceMiddleware env c).Value KeyGinRequestID
      = GoAny.string
          (if HeaderGet c.Request.Header env.ClientIDHeaderName = []
           then env.uuid c.uuidCalls
           else HeaderGet c.Request.Header env.ClientIDHeaderName) := by
  have hne : KeyGinRequestID ≠ KeyGinUserAgent := by decide
  by_cases h : HeaderGet c.Request.Header env.ClientIDHeaderName = [] <;>
    simp [GinLogTraceMiddleware, Context.Value, Context.Set, ID, h, hne]

theorem GinLogTraceMiddleware_Value_agent {ω : Type} (env : Env) (c : Context ω) :
    (GinLogTraceMiddleware env c).Value KeyGinUserAgent
      = GoAny.string
          (if HeaderGet c.Request.Header env.ClientUserAgentHeaderName = []
           then str "unknown"
           else HeaderGet c.Request.Header env.ClientUserAgentHeaderName) := by
  by_cases h : HeaderGet c.Request.Header env.ClientIDHeaderName = [] <;>
    by_cases h2 : HeaderGet c.Request.Header env.ClientUserAgentHeaderName = [] <;>
    simp [GinLogTraceMiddleware, Context.Value, Context.Set, ID, h, h2]

theorem ReadAll_NewBuffer (X : Bytes) : ReadAll (NopCloser (NewBuffer X)) = (X, none) := by
  by_cases h : X = []
  · simp [NopCloser, NewBuffer, h, ReadAll, ReadAllLoop]
  · simp [NopCloser, NewBuffer, h, ReadAll, ReadAllLoop]

/-! ## The response recorder -/

/-- Claim C1: for every sequence of chunks passed to `ResponseRecorder.Write` and every
behaviour of the wrapped sink, the sink receives exactly the calls `Write(d1)` .. `Write(dn)`,
in that order and chunking, ends in the state those calls made directly would leave it in,
and the mirror buffer is its previous content followed by `d1 ++ ... ++ dn`. -/
theorem ResponseRecorder_Write_forwards_and_mirrors (w : Sink) (body : Bytes) (status : Int)
    (ds : List Bytes) :
    (writeAll ({ ResponseWriter := w, body := body, status := status } : ResponseRecorder Sink)
        ds).1.ResponseWriter.calls = w.calls ++ ds.map SinkCall.Write
      ∧ (writeAll ({ ResponseWriter := w, body := body, status := status } : ResponseRecorder Sink)
          ds).1.ResponseWriter = (writeAll w ds).1
      ∧ (writeAll ({ ResponseWriter := w, body := body, status := status } : ResponseRecorder Sink)
          ds).1.body = body ++ ds.flatten := by
  have h := (writeAll_recorder ds
    ({ ResponseWriter := w, body := body, status := status } : ResponseRecorder Sink)).1
  rw [h]
  exact ⟨writeAll_sink_calls ds w, rfl, rfl⟩

/-- Claim C7: whatever `(n, err)` the wrapped sink returns for `Write(d)`, be it a short count
or a failure, `ResponseRecorder.Write(d)` returns that same pair. -/
theorem ResponseRecorder_Write_returns_sink_result (r : ResponseRecorder Sink) (d : Bytes)
    (n : Int) (err : Option GoError) (h : (Sink.Write r.ResponseWriter d).2 = (n, err)) :
    (ResponseRecorder.Write r d).2 = (n, err) := by
  simpa [ResponseRecorder.Write, GinResponseWriter.Write] using h

theorem ResponseRecorder_Write_returns_sink_result_witness :
    (Sink.Write brokenSink (str "hello")).2 = (3, some { msg := str "broken pipe" })
      ∧ (ResponseRecorder.Write
          ({ ResponseWriter := brokenSink, body := [], status := 200 } : ResponseRecorder Sink)
          (str "hello")).2 = (3, some { msg := str "broken pipe" }) :=
  ⟨by decide,
   ResponseRecorder_Write_returns_sink_result
     { ResponseWriter := brokenSink, body := [], status := 200 } (str "hello") 3
     (some { msg := str "broken pipe" }) (by decide)⟩

/-- Claim C2, as amended: after `ResponseRecorder.WriteHeader(S)` the recorder reports `S`, the
wrapped sink has received `WriteHeader(S)` as its latest call and is in the state that call
puts it in, and the mirror buffer is unchanged; the status the sink itself records equals `S`
when the sink records the code of that call. -/
theorem ResponseRecorder_WriteHeader_captures_and_forwards (r : ResponseRecorder Sink)
    (S : Int) :
    (ResponseRecorder.WriteHeader r S).status = S
      ∧ (ResponseRecorder.WriteHeader r S).ResponseWriter.calls
          = r.ResponseWriter.calls ++ [SinkCall.WriteHeader S]
      ∧ (ResponseRecorder.WriteHeader r S).ResponseWriter = Sink.WriteHeader r.ResponseWriter S
      ∧ (ResponseRecorder.WriteHeader r S).body = r.body
      ∧ (r.ResponseWriter.statusAfter (r.ResponseWriter.calls ++ [SinkCall.WriteHeader S]) = S →
          (ResponseRecorder.WriteHeader r S).ResponseWriter.Status = S) := by
  refine ⟨rfl, rfl, rfl, rfl, ?_⟩
  intro h
  simpa [ResponseRecorder.WriteHeader, GinResponseWriter.WriteHeader, Sink.WriteHeader,
    Sink.Status] using h

theorem ResponseRecorder_WriteHeader_captures_and_forwards_witness :
    recordingSink.statusAfter (recordingSink.calls ++ [SinkCall.WriteHeader 404]) = 404
      ∧ (ResponseRecorder.WriteHeader
          ({ ResponseWriter := recordingSink, body := str "x", status := 200 } :
            ResponseRecorder Sink) 404).ResponseWriter.Status = 404 :=
  ⟨by decide,
   (ResponseRecorder_WriteHeader_captures_and_forwards
     { ResponseWriter := recordingSink, body := str "x", status := 200 } 404).2.2.2.2
     (by decide)⟩

/-- Claim C2 fails as stated: a sink that has sent its header with the first body bytes
receives `WriteHeader(404)` from the recorder and keeps status 200, while the recorder
reports 404. -/
theorem ResponseRecorder_WriteHeader_sink_status_counterexample :
    (ResponseRecorder.WriteHeader
        (ResponseRecorder.Write
          ({ ResponseWriter := committingSink, body := [], status := 200 } :
            ResponseRecorder Sink) (str "x")).1 404).status = 404
      ∧ (ResponseRecorder.WriteHeader
        (ResponseRecorder.Write
          ({ ResponseWriter := committingSink, body := [], status := 200 } :
            ResponseRecorder Sink) (str "x")).1 404).ResponseWriter.calls
          = [SinkCall.Write (str "x"), SinkCall.WriteHeader 404]
      ∧ (ResponseRecorder.WriteHeader
        (ResponseRecorder.Write
          ({ ResponseWriter := committingSink, body := [], status := 200 } :
            ResponseRecorder Sink) (str "x")).1 404).ResponseWriter.Status = 200
      ∧ ¬ ((ResponseRecorder.WriteHeader
        (ResponseRecorder.Write
          ({ ResponseWriter := committingSink, body := [], status := 200 } :
            ResponseRecorder Sink) (str "x")).1 404).ResponseWriter.Status = 404) := by
  decide

/-- Claim C3: when the body of the request reads to its end without error and yields `X`, the
pre-processing of `SlogMiddleware` leaves a fresh stream as the body whose read to the end
yields exactly `X`, and the text kept for the log is `X`; when the request has no body the
text is empty and the body stays absent. -/
theorem SlogMiddleware_restores_request_body {ω : Type} (env : Env) (c : Context ω) :
    (∀ (body : Reader) (X : Bytes), c.Request.Body = some body → ReadAll body = (X, none) →
        (SlogBefore env c).2.Request.Body = some (NopCloser (NewBuffer X))
          ∧ ReadAll (NopCloser (NewBuffer X)) = (X, none)
          ∧ (SlogBefore env c).1.requestBody = string X)
      ∧ (c.Request.Body = none →
          (SlogBefore env c).2.Request.Body = none ∧ (SlogBefore env c).1.requestBody = []) := by
  constructor
  · intro body X hb hr
    refine ⟨?_, ReadAll_NewBuffer X, ?_⟩
    · simp [SlogBefore, hb, hr]
    · simp [SlogBefore, hb, hr]
  · intro hb
    simp [SlogBefore, hb]

theorem SlogMiddleware_restores_request_body_witness :
    ReadAll [{ data := str "ab", err := none }, { data := str "c", err := some ReadErr.EOF }]
        = (str "abc", none)
      ∧ (SlogBefore exampleEnv (exampleContext chunkedBodyRequest recordingSink)).2.Request.Body
          = some (NopCloser (NewBuffer (str "abc")))
      ∧ ReadAll (NopCloser (NewBuffer (str "abc"))) = (str "abc", none)
      ∧ (SlogBefore exampleEnv (exampleContext chunkedBodyRequest recordingSink)).1.requestBody
          = string (str "abc") :=
  ⟨by decide,
   (SlogMiddleware_restores_request_body exampleEnv
     (exampleContext chunkedBodyRequest recordingSink)).1 _ (str "abc") rfl (by decide)⟩

/-! ## The correlation stage and the logging stage -/

/-- Claim C4: after `GinLogTraceMiddleware` the context holds both values at once: under
`KeyGinRequestID` the client-id header when it is not empty (and then `ID()` is not called),
otherwise the token `ID()` returns; under `KeyGinUserAgent` the client-user-agent header when
it is not empty, otherwise `unknown`.  The two keys differ, no other key changes, and the
stage records no error and touches neither request, writer nor log. -/
theorem GinLogTraceMiddleware_publishes_id_and_label {ω : Type} (env : Env) (c : Context ω) :
    (GinLogTraceMiddleware env c).Value KeyGinRequestID
        = GoAny.string
            (if HeaderGet c.Request.Header env.ClientIDHeaderName = []
             then env.uuid c.uuidCalls
             else HeaderGet c.Request.Header env.ClientIDHeaderName)
      ∧ (GinLogTraceMiddleware env c).Value KeyGinUserAgent
        = GoAny.string
            (if HeaderGet c.Request.Header env.ClientUserAgentHeaderName = []
             then str "unknown"
             else HeaderGet c.Request.Header env.ClientUserAgentHeaderName)
      ∧ (HeaderGet c.Request.Header env.ClientIDHeaderName ≠ [] →
          (GinLogTraceMiddleware env c).uuidCalls = c.uuidCalls)
      ∧ (HeaderGet c.Request.Header env.ClientIDHeaderName = [] →
          (GinLogTraceMiddleware env c).uuidCalls = c.uuidCalls + 1)
      ∧ KeyGinRequestID ≠ KeyGinUserAgent
      ∧ (∀ k, k ≠ KeyGinRequestID → k ≠ KeyGinUserAgent →
          (GinLogTraceMiddleware env c).Keys k = c.Keys k)
      ∧ (GinLogTraceMiddleware env c).Errors = c.Errors
      ∧ (GinLogTraceMiddleware env c).logged = c.logged
      ∧ (GinLogTraceMiddleware env c).Writer = c.Writer
      ∧ (GinLogTraceMiddleware env c).Request = c.Request := by
  have hne : KeyGinRequestID ≠ KeyGinUserAgent := by decide
  refine ⟨GinLogTraceMiddleware_Value_id env c, GinLogTraceMiddleware_Value_agent env c,
    ?_, ?_, hne, ?_, ?_, ?_, ?_, ?_⟩
  · intro h
    simp [GinLogTraceMiddleware, Context.Set, h]
  · intro h
    simp [GinLogTraceMiddleware, Context.Set, ID, h]
  · intro k h1 h2
    by_cases h : HeaderGet c.Request.Header env.ClientIDHeaderName = [] <;>
      simp [GinLogTraceMiddleware, Context.Set, ID, h, h1, h2]
  · by_cases h : HeaderGet c.Request.Header env.ClientIDHeaderName = [] <;>
      simp [GinLogTraceMiddleware, Context.Set, ID, h]
  · by_cases h : HeaderGet c.Request.Header env.ClientIDHeaderName = [] <;>
      simp [GinLogTraceMiddleware, Context.Set, ID, h]
  · by_cases h : HeaderGet c.Request.Header env.ClientIDHeaderName = [] <;>
      simp [GinLogTraceMiddleware, Context.Set, ID, h]
  · by_cases h : HeaderGet c.Request.Header env.ClientIDHeaderName = [] <;>
      simp [GinLogTraceMiddleware, Context.Set, ID, h]

theorem GinLogTraceMiddleware_publishes_id_and_label_witness :
    HeaderGet abcRequest.Header exampleEnv.ClientIDHeaderName ≠ []
      ∧ (GinLogTraceMiddleware exampleEnv (exampleContext abcRequest recordingSink)).uuidCalls
          = 0
      ∧ (GinLogTraceMiddleware exampleEnv (exampleContext abcRequest recordingSink)).Value
          KeyGinRequestID = GoAny.string (str "abc")
      ∧ (GinLogTraceMiddleware exampleEnv (exampleContext abcRequest recordingSink)).Value
          KeyGinUserAgent = GoAny.string (str "unknown") :=
  ⟨by decide,
   (GinLogTraceMiddleware_publishes_id_and_label exampleEnv
     (exampleContext abcRequest recordingSink)).2.2.1 (by decide),
   ((GinLogTraceMiddleware_publishes_id_and_label exampleEnv
     (exampleContext abcRequest recordingSink)).1).trans (by decide),
   ((GinLogTraceMiddleware_publishes_id_and_label exampleEnv
     (exampleContext abcRequest recordingSink)).2.1).trans (by decide)⟩

/-- The event of `SlogMiddleware`, for every request and every chain that returns: exactly one
event is added to the log, at level Info, after everything the chain logged (when the chain
returns the event is not yet there).  Its attributes `method`, `path` and `query` are those of
the request on entry, `request_body` is the text read from the inbound body (empty without a
body), `status` is the last code the chain passed to the recorder's `WriteHeader`, 200 when
there was none, and `response_body` holds the chunks the chain passed to the method `Write`
only: bytes sent with `WriteString` are missing from it. -/
theorem SlogMiddleware_logs_one_event_after_chain {ω : Type} [GinResponseWriter ω] (env : Env)
    (next : List HandlerOp) (c : Context ω) :
    ∃ ev : LogEvent,
      (SlogMiddleware env next c).logged = c.logged ++ logsOf next ++ [ev]
        ∧ (Next next (SlogBefore env c).2).logged = c.logged ++ logsOf next
        ∧ ev.level = Level.Info
        ∧ attr ev.args (str "method") = some (GoAny.string c.Request.Method)
        ∧ attr ev.args (str "path") = some (GoAny.string c.Request.Path)
        ∧ attr ev.args (str "query") = some (GoAny.string c.Request.RawQuery)
        ∧ attr ev.args (str "request_body")
            = some (GoAny.string
                (match c.Request.Body with
                 | none => []
                 | some body => string (ReadAll body).1))
        ∧ attr ev.args (str "response_body") = some (GoAny.string (writesOf next).flatten)
        ∧ attr ev.args (str "status")
            = some (GoAny.int (((statusesOf next).getLast?).getD 200)) := by
  refine ⟨_, SlogMiddleware_logged env next c, ?_, rfl, rfl, rfl, rfl, ?_, rfl, rfl⟩
  · rw [Next_logged]; rfl
  · rw [SlogBefore_requestBody]; rfl

theorem SlogMiddleware_logs_one_event_after_chain_witness :
    (SlogMiddleware exampleEnv exampleChain
        (GinLogTraceMiddleware exampleEnv (exampleContext exampleRequest recordingSink))).logged
        = [{ level := Level.Info, msg := str "api",
             logger := [(str "id", GoAny.string (str "req-42")),
                        (str "user-agent", GoAny.string (str "unknown"))],
             args :=
              [(str "method", GoAny.string (str "GET")),
               (str "path", GoAny.string (str "/items")),
               (str "query", GoAny.string (str "x=1")),
               (str "client_ip", GoAny.string (str "10.0.0.1")),
               (str "request_body", GoAny.string (str "")),
               (str "response_body", GoAny.string (str "\x7b\"id\":7\x7d")),
               (str "status", GoAny.int 201),
               (str "latency", GoAny.duration 0),
               (str "error", GoAny.string (str ""))] }]
      ∧ ∃ ev : LogEvent,
        (SlogMiddleware exampleEnv exampleChain
            (GinLogTraceMiddleware exampleEnv
              (exampleContext exampleRequest recordingSink))).logged
          = (GinLogTraceMiddleware exampleEnv
              (exampleContext exampleRequest recordingSink)).logged
              ++ logsOf exampleChain ++ [ev]
        ∧ attr ev.args (str "status") = some (GoAny.int 201) := by
  refine ⟨by decide, ?_⟩
  obtain ⟨ev, h1, _, _, _, _, _, _, _, h9⟩ :=
    SlogMiddleware_logs_one_event_after_chain exampleEnv exampleChain
      (GinLogTraceMiddleware exampleEnv (exampleContext exampleRequest recordingSink))
  exact ⟨ev, h1, h9.trans (by decide)⟩

/-- Claim C5, at a failing input: a chain that answers `GET /items?x=1` with status 201 and
the body `b` sent with `c.Writer.WriteString` makes the wrapped sink receive that body through
the recorder, while the one event logged has an empty `response_body`; the same body sent with
`c.Writer.Write` is logged as `b`. -/
theorem SlogMiddleware_WriteString_body_not_logged :
    (Next [HandlerOp.WriteHeader 201, HandlerOp.WriteString (str "b")]
        (SlogBefore exampleEnv
          (exampleContext exampleRequest recordingSink)).2).Writer.ResponseWriter.calls
        = [SinkCall.WriteHeader 201, SinkCall.WriteString (str "b")]
      ∧ (SlogMiddleware exampleEnv [HandlerOp.WriteHeader 201, HandlerOp.WriteString (str "b")]
            (exampleContext exampleRequest recordingSink)).logged.map
          (fun ev => (attr ev.args (str "response_body"), attr ev.args (str "status")))
          = [(some (GoAny.string (str "")), some (GoAny.int 201))]
      ∧ ¬ ((SlogMiddleware exampleEnv
              [HandlerOp.WriteHeader 201, HandlerOp.WriteString (str "b")]
              (exampleContext exampleRequest recordingSink)).logged.map
            (fun ev => attr ev.args (str "response_body"))
            = [some (GoAny.string (str "b"))])
      ∧ (SlogMiddleware exampleEnv [HandlerOp.WriteHeader 201, HandlerOp.Write (str "b")]
            (exampleContext exampleRequest recordingSink)).logged.map
          (fun ev => (attr ev.args (str "response_body"), attr ev.args (str "status")))
          = [(some (GoAny.string (str "b")), some (GoAny.int 201))] := by
  decide

/-- Claim C6: the `error` attribute of the event is the string form of exactly the errors on
the chain whose type has the private bit, those recorded before the stage followed by those
the chain records (the others are left out); it is empty if and only if there is no such
error; and when the only error is a private one, its message is rendered in the attribute,
which is `Error #01: ` followed by the message and a line end when the error has no meta
data. -/
theorem SlogMiddleware_error_attribute {ω : Type} [GinResponseWriter ω] (env : Env)
    (next : List HandlerOp) (c : Context ω) :
    ∃ ev : LogEvent,
      (SlogMiddleware env next c).logged = c.logged ++ logsOf next ++ [ev]
        ∧ attr ev.args (str "error")
            = some (GoAny.string (errorMsgsString
                ((c.Errors ++ errorsOf next).filter (fun e => e.IsType ErrorTypePrivate))))
        ∧ (errorMsgsString
              ((c.Errors ++ errorsOf next).filter (fun e => e.IsType ErrorTypePrivate)) = []
            ↔ ∀ e ∈ c.Errors ++ errorsOf next, e.IsType ErrorTypePrivate = false)
        ∧ (∀ e : GinError, c.Errors ++ errorsOf next = [e] → e.Type_ = ErrorTypePrivate →
            (∃ text : GoString,
                attr ev.args (str "error") = some (GoAny.string text)
                  ∧ List.IsInfix e.Err.msg text)
              ∧ (e.Meta = none →
                  attr ev.args (str "error")
                    = some (GoAny.string (str "Error #01: " ++ e.Err.msg ++ str "\n")))) := by
  refine ⟨_, SlogMiddleware_logged env next c, ?_, ?_, ?_⟩
  · rw [ByType_private]; rfl
  · rw [errorMsgsString_eq_nil, List.filter_eq_nil_iff]
    constructor
    · intro h e he
      simpa using h e he
    · intro h e he
      simpa using h e he
  · intro e he ht
    have hp : e.IsType ErrorTypePrivate = true := by
      have h11 : Nat.land 1 1 > 0 := by decide
      simpa [GinError.IsType, ht, ErrorTypePrivate] using h11
    have hattr : attr
        [(str "method", GoAny.string c.Request.Method),
         (str "path", GoAny.string c.Request.Path),
         (str "query", GoAny.string c.Request.RawQuery),
         (str "client_ip", GoAny.string (env.ClientIP c.Request)),
         (str "request_body", GoAny.string (SlogBefore env c).1.requestBody),
         (str "response_body", GoAny.string (writesOf next).flatten),
         (str "status", GoAny.int (((statusesOf next).getLast?).getD StatusOK)),
         (str "latency",
           GoAny.duration (((Next next (SlogBefore env c).2).clock : Int) - (c.clock : Int))),
         (str "error",
           GoAny.string (errorMsgsString
             (ByType (c.Errors ++ errorsOf next) ErrorTypePrivate)))] (str "error")
        = some (GoAny.string (errorMsgsString [e])) := by
      rw [ByType_private, he]
      simp only [List.filter_cons, hp, if_true, List.filter_nil]
      rfl
    refine ⟨⟨errorMsgsString [e], hattr, ?_⟩, ?_⟩
    · exact errorMsgsString_single_infix e
    · intro hm
      rw [hattr, errorMsgsString_single e hm]

theorem SlogMiddleware_error_attribute_witness :
    (exampleContext exampleRequest recordingSink).Errors ++ errorsOf [HandlerOp.Error dbTimeout]
        = [dbTimeout]
      ∧ ∃ ev : LogEvent,
        (SlogMiddleware exampleEnv [HandlerOp.Error dbTimeout]
            (exampleContext exampleRequest recordingSink)).logged = [ev]
        ∧ attr ev.args (str "error") = some (GoAny.string (str "Error #01: db timeout\n"))
        ∧ List.IsInfix (str "db timeout") (str "Error #01: db timeout\n") := by
  refine ⟨by decide, ?_⟩
  obtain ⟨ev, h1, _, _, h4⟩ :=
    SlogMiddleware_error_attribute exampleEnv [HandlerOp.Error dbTimeout]
      (exampleContext exampleRequest recordingSink)
  have h := (h4 dbTimeout (by decide) rfl).2 rfl
  exact ⟨ev, h1, h.trans (by decide), ⟨str "Error #01: ", str "\n", by decide⟩⟩

/-- Claim C8, as amended: when reading the body of the request fails after delivering the bytes
`X`, the failure is ignored: the text kept for the log is `X`, the body is replaced by a fresh
stream of those bytes, and the stage still runs the chain and logs its event, with
`request_body` equal to `X`. -/
theorem SlogMiddleware_failed_body_read_keeps_delivered_bytes {ω : Type} [GinResponseWriter ω]
    (env : Env) (next : List HandlerOp) (c : Context ω) (body : Reader) (X : Bytes)
    (e : GoError) (hbody : c.Request.Body = some body) (hfail : ReadAll body = (X, some e)) :
    (SlogBefore env c).1.requestBody = string X
      ∧ (SlogBefore env c).2.Request.Body = some (NopCloser (NewBuffer X))
      ∧ ReadAll (NopCloser (NewBuffer X)) = (X, none)
      ∧ ∃ ev : LogEvent,
          (SlogMiddleware env next c).logged = c.logged ++ logsOf next ++ [ev]
            ∧ attr ev.args (str "request_body") = some (GoAny.string X) := by
  have hr : (SlogBefore env c).1.requestBody = X := by
    rw [SlogBefore_requestBody, hbody]; simp [hfail]
  refine ⟨hr, ?_, ReadAll_NewBuffer X, _, SlogMiddleware_logged env next c, ?_⟩
  · simp [SlogBefore, hbody, hfail]
  · rw [hr]; rfl

theorem SlogMiddleware_failed_body_read_keeps_delivered_bytes_witness :
    failingBodyRequest.Body
        = some [{ data := str "ab",
                  err := some (ReadErr.fail { msg := str "connection reset" }) }]
      ∧ ReadAll [{ data := str "ab",
                   err := some (ReadErr.fail { msg := str "connection reset" }) }]
          = (str "ab", some { msg := str "connection reset" })
      ∧ (SlogBefore exampleEnv (exampleContext failingBodyRequest recordingSink)).1.requestBody
          = string (str "ab") :=
  ⟨rfl, by decide,
   (SlogMiddleware_failed_body_read_keeps_delivered_bytes exampleEnv exampleChain
     (exampleContext failingBodyRequest recordingSink) _ (str "ab")
     { msg := str "connection reset" } rfl (by decide)).1⟩

/-- Claim C8 fails as stated: a body that delivers `ab` and then fails is logged with
`request_body` equal to `ab`, not the empty string. -/
theorem SlogMiddleware_failed_body_read_counterexample :
    (ReadAll [{ data := str "ab",
                err := some (ReadErr.fail { msg := str "connection reset" }) }]).2
        = some { msg := str "connection reset" }
      ∧ (SlogBefore exampleEnv (exampleContext failingBodyRequest recordingSink)).1.requestBody
          = str "ab"
      ∧ ¬ ((SlogBefore exampleEnv
              (exampleContext failingBodyRequest recordingSink)).1.requestBody = [])
      ∧ (SlogMiddleware exampleEnv exampleChain
            (exampleContext failingBodyRequest recordingSink)).logged.map
          (fun ev => attr ev.args (str "request_body")) = [some (GoAny.string (str "ab"))] := by
  decide

/-- Claim C10: when the chain never calls `WriteHeader`, however many bytes it writes, the
status held by the recorder `SlogMiddleware` installed is 200 when the chain returns, and so
is the `status` attribute of the event. -/
theorem SlogMiddleware_default_status {ω : Type} [GinResponseWriter ω] (env : Env)
    (next : List HandlerOp) (c : Context ω) (hno : ∀ op ∈ next, op.headerCode = none) :
    (Next next (SlogBefore env c).2).Writer.status = 200
      ∧ ∃ ev : LogEvent,
          (SlogMiddleware env next c).logged = c.logged ++ logsOf next ++ [ev]
            ∧ attr ev.args (str "status") = some (GoAny.int 200) := by
  have hs : statusesOf next = [] := by
    simp only [statusesOf, List.filterMap_eq_nil_iff]
    exact hno
  refine ⟨?_, _, SlogMiddleware_logged env next c, ?_⟩
  · rw [Next_recorder_status, hs]; rfl
  · rw [hs]; rfl

theorem SlogMiddleware_default_status_witness :
    (∀ op ∈ [HandlerOp.Write (str "a"), HandlerOp.WriteString (str "b"),
              HandlerOp.Write (str "c")], op.headerCode = none)
      ∧ (Next [HandlerOp.Write (str "a"), HandlerOp.WriteString (str "b"),
                HandlerOp.Write (str "c")]
            (SlogBefore exampleEnv
              (exampleContext exampleRequest recordingSink)).2).Writer.status = 200 :=
  ⟨by simp [HandlerOp.headerCode],
   (SlogMiddleware_default_status exampleEnv _ (exampleContext exampleRequest recordingSink)
     (by simp [HandlerOp.headerCode])).1⟩

/-- Claim C9, as amended: for a request that went through `GinLogTraceMiddleware` and then
`SlogMiddleware`, the logger of the event is the one `Ctx` returns when the chain is back, so
it carries under `id` and `user-agent` what the context holds under the two keys then; when the
chain stores nothing under the two keys, these are the published identifier and the published
label: `Ctx` reads the keys `GinLogTraceMiddleware` writes. -/
theorem SlogMiddleware_logger_carries_published_values {ω : Type} [GinResponseWriter ω]
    (env : Env) (next : List HandlerOp) (c : Context ω) :
    ∃ ev : LogEvent,
      (SlogMiddleware env next (GinLogTraceMiddleware env c)).logged
          = (GinLogTraceMiddleware env c).logged ++ logsOf next ++ [ev]
        ∧ ev.logger = Ctx env (Next next (SlogBefore env (GinLogTraceMiddleware env c)).2)
        ∧ ev.logger
            = LoggerWith env.Logger
                [(str "id",
                   (Next next (SlogBefore env (GinLogTraceMiddleware env c)).2).Value
                     KeyGinRequestID),
                 (str "user-agent",
                   (Next next (SlogBefore env (GinLogTraceMiddleware env c)).2).Value
                     KeyGinUserAgent)]
        ∧ ((∀ op ∈ next,
              op.setsKey KeyGinRequestID = false ∧ op.setsKey KeyGinUserAgent = false) →
            ev.logger
              = LoggerWith env.Logger
                  [(str "id",
                     GoAny.string
                       (if HeaderGet c.Request.Header env.ClientIDHeaderName = []
                        then env.uuid c.uuidCalls
                        else HeaderGet c.Request.Header env.ClientIDHeaderName)),
                   (str "user-agent",
                     GoAny.string
                       (if HeaderGet c.Request.Header env.ClientUserAgentHeaderName = []
                        then str "unknown"
                        else HeaderGet c.Request.Header env.ClientUserAgentHeaderName))]) := by
  refine ⟨_, SlogMiddleware_logged env next (GinLogTraceMiddleware env c), rfl, rfl, ?_⟩
  intro hkeep
  have k1 := Next_Keys KeyGinRequestID next (SlogBefore env (GinLogTraceMiddleware env c)).2
    (fun op hop => (hkeep op hop).1)
  have k2 := Next_Keys KeyGinUserAgent next (SlogBefore env (GinLogTraceMiddleware env c)).2
    (fun op hop => (hkeep op hop).2)
  rw [← GinLogTraceMiddleware_Value_id env c, ← GinLogTraceMiddleware_Value_agent env c]
  simp only [Ctx, Context.Value, k1, k2]
  rfl

theorem SlogMiddleware_logger_carries_published_values_witness :
    (∀ op ∈ [HandlerOp.Set (str "user") (GoAny.other 7), HandlerOp.WriteHeader 201],
        op.setsKey KeyGinRequestID = false ∧ op.setsKey KeyGinUserAgent = false)
      ∧ (SlogMiddleware exampleEnv
            [HandlerOp.Set (str "user") (GoAny.other 7), HandlerOp.WriteHeader 201]
            (GinLogTraceMiddleware exampleEnv
              (exampleContext exampleRequest recordingSink))).logged.map (fun ev => ev.logger)
          = [[(str "id", GoAny.string (str "req-42")),
              (str "user-agent", GoAny.string (str "unknown"))]]
      ∧ ∃ ev : LogEvent,
          (SlogMiddleware exampleEnv
              [HandlerOp.Set (str "user") (GoAny.other 7), HandlerOp.WriteHeader 201]
              (GinLogTraceMiddleware exampleEnv
                (exampleContext exampleRequest recordingSink))).logged
            = (GinLogTraceMiddleware exampleEnv
                (exampleContext exampleRequest recordingSink)).logged
              ++ logsOf [HandlerOp.Set (str "user") (GoAny.other 7), HandlerOp.WriteHeader 201]
              ++ [ev]
          ∧ ev.logger
              = LoggerWith exampleEnv.Logger
                  [(str "id", GoAny.string (str "req-42")),
                   (str "user-agent", GoAny.string (str "unknown"))] := by
  refine ⟨by decide, by decide, ?_⟩
  obtain ⟨ev, h1, _, _, h4⟩ :=
    SlogMiddleware_logger_carries_published_values exampleEnv
      [HandlerOp.Set (str "user") (GoAny.other 7), HandlerOp.WriteHeader 201]
      (exampleContext exampleRequest recordingSink)
  refine ⟨ev, h1, ?_⟩
  rw [h4 (by decide)]
  decide

/-- Claim C9 fails as stated: a handler of the chain that stores `order-7` under `id` makes
the logger of the event carry `order-7`, while the published identifier was `req-42`. -/
theorem SlogMiddleware_logger_overwritten_key_counterexample :
    (GinLogTraceMiddleware exampleEnv
        (exampleContext exampleRequest recordingSink)).Value KeyGinRequestID
        = GoAny.string (str "req-42")
      ∧ (SlogMiddleware exampleEnv [HandlerOp.Set (str "id") (GoAny.string (str "order-7"))]
            (GinLogTraceMiddleware exampleEnv
              (exampleContext exampleRequest recordingSink))).logged.map (fun ev => ev.logger)
          = [[(str "id", GoAny.string (str "order-7")),
              (str "user-agent", GoAny.string (str "unknown"))]]
      ∧ ¬ ((SlogMiddleware exampleEnv
              [HandlerOp.Set (str "id") (GoAny.string (str "order-7"))]
              (GinLogTraceMiddleware exampleEnv
                (exampleContext exampleRequest recordingSink))).logged.map
                  (fun ev => attr ev.logger (str "id"))
            = [some ((GinLogTraceMiddleware exampleEnv
                (exampleContext exampleRequest recordingSink)).Value KeyGinRequestID)]) := by
  decide

end LogGin
